import Mathlib

/-!
Verification of `src/ios/update_info_plist.py`, a one-shot read-modify-write
utility over an Info.plist configuration file.

The script is embedded shallowly:

* A plist value (`PValue`) is a tagged union of the serializable plist leaf
  and container types (reals and dates are elided; no claim touches them).
* A parsed top-level document (`Doc`) is the ordered association list of a
  Python dict (string keys to values; a dict parsed by `plistlib.load` has
  unique keys, so erasing every entry with the target key coincides with
  Python's single-entry `del`).
* The filesystem (`FS`) is an association list from paths to file contents.
  A file's content is either a parseable property list, tagged with the
  format `plistlib.load` would detect (`binary` or `xml`), or `invalid`
  bytes on which `plistlib.load` raises.
* I/O nondeterminism (read failure, failure to open the file for writing,
  failure during `plistlib.dump`) is resolved by an oracle `IOEnv`.

Faithfulness notes on the write phase (lines 30-32 of the script):
`open(plist_path, 'wb')` truncates the file as soon as the open succeeds, so
a failure inside `plistlib.dump` leaves a truncated (hence invalid) file,
not the original content; and `plistlib.dump` is called without a `fmt`
argument, so it always serializes to `FMT_XML`, whatever the input format
was.  `plistlib.dump` also sorts keys by default; this normalization is not
modelled because every claim is about key/value content, not byte layout,
and re-serializing an already-written document is still the identity.
-/

/-- A property-list value: the serializable leaf and container types of the
plist format (reals and dates elided). -/
inductive PValue where
  | str (s : String)
  | int (n : Int)
  | bool (b : Bool)
  | data (bytes : List Nat)
  | array (xs : List PValue)
  | dict (entries : List (String × PValue))

/-- A parsed top-level plist document: Python's dict of string keys to
values, in insertion order. -/
abbrev Doc := List (String × PValue)

/-- The on-disk format `plistlib.load` detects and `plistlib.dump` emits. -/
inductive Fmt where
  | binary
  | xml
deriving DecidableEq

/-- Content of a file: either a parseable property list together with its
detected format, or bytes on which `plistlib.load` raises. -/
inductive PContent where
  | plist (fmt : Fmt) (doc : Doc)
  | invalid

/-- A filesystem: an association list from path strings to file contents. -/
abbrev FS := List (String × PContent)

/-- Look up the content of the file at path `p` (models `os.path.exists`
combined with reading the file). -/
def fsLookup : FS → String → Option PContent
  | [], _ => none
  | e :: rest, p => if e.1 = p then some e.2 else fsLookup rest p

/-- Overwrite (or create) the file at path `p` with content `c`. -/
def fsWrite : FS → String → PContent → FS
  | [], p, c => [(p, c)]
  | e :: rest, p, c => if e.1 = p then (p, c) :: rest else e :: fsWrite rest p c

/-- Keys of a document, in order (Python `plist_data.keys()`). -/
def docKeys (d : Doc) : List String := d.map Prod.fst

/-- First value bound to key `k` (Python `plist_data[k]`; membership
`k in plist_data` is `(lookupKey d k).isSome`). -/
def lookupKey : Doc → String → Option PValue
  | [], _ => none
  | e :: rest, k => if e.1 = k then some e.2 else lookupKey rest k

/-- Remove every entry with key `t` (Python `del plist_data[t]` on a dict,
whose keys are unique). -/
def eraseKey : Doc → String → Doc
  | [], _ => []
  | e :: rest, t => if e.1 = t then eraseKey rest t else e :: eraseKey rest t

/-- The hardcoded path of line 12 of the script. -/
def plist_path : String := "Silento/Info.plist"

/-- The hardcoded key of lines 24-25 of the script. -/
def targetKey : String := "UIApplicationSceneManifest"

/-- I/O oracle deciding the fallible steps of one run: whether opening and
reading the file succeeds, whether `open(plist_path, 'wb')` succeeds, and
whether `plistlib.dump` then runs to completion. -/
structure IOEnv where
  readOk : Bool
  openWriteOk : Bool
  dumpOk : Bool

/-- Exceptions the `try` block of the script can raise. -/
inductive PyExc where
  | readError
  | parseError
  | writeError
deriving DecidableEq

/-- Observable outcome of a run, as distinguished by the script's return
value and printed messages (lines 15, 26, 28, 34, 38). -/
inductive Outcome where
  | removed
  | alreadyAbsent
  | notFound
  | readError
  | parseError
  | writeError
deriving DecidableEq

/-- The outcome reported by the `except` handler for each exception. -/
def excOutcome : PyExc → Outcome
  | PyExc.readError => Outcome.readError
  | PyExc.parseError => Outcome.parseError
  | PyExc.writeError => Outcome.writeError

/-- Result of one run of `update_info_plist`: the returned boolean, the
observable outcome, the filesystem afterwards, and the list of paths that
were opened for writing. -/
structure RunResult where
  ret : Bool
  outcome : Outcome
  fs : FS
  writes : List String

/-- The `try` block, lines 18-35 of the script: read and parse the file,
delete the target key if present, open the file for writing (which
truncates it) and dump the document back.  Returns the raised exception or
the success outcome, together with the filesystem as the block leaves it
(an exception does not roll the truncation back) and the paths opened for
writing. -/
def tryBody (fs : FS) (env : IOEnv) : Except PyExc Outcome × FS × List String :=
  if env.readOk then
    match fsLookup fs plist_path with
    | none => (Except.error PyExc.readError, fs, [])
    | some PContent.invalid => (Except.error PyExc.parseError, fs, [])
    | some (PContent.plist _ d) =>
      let present := (lookupKey d targetKey).isSome
      let d' := if present then eraseKey d targetKey else d
      let oc := if present then Outcome.removed else Outcome.alreadyAbsent
      if env.openWriteOk then
        let fs1 := fsWrite fs plist_path PContent.invalid
        if env.dumpOk then
          (Except.ok oc, fsWrite fs1 plist_path (PContent.plist Fmt.xml d'), [plist_path])
        else
          (Except.error PyExc.writeError, fs1, [plist_path])
      else
        (Except.error PyExc.writeError, fs, [])
  else
    (Except.error PyExc.readError, fs, [])

/-- The function `update_info_plist` of the script: check existence of the
hardcoded path (lines 14-16), then run the `try` block, catching every
exception and turning it into a `False` return (lines 37-39). -/
def update_info_plist (fs : FS) (env : IOEnv) : RunResult :=
  if (fsLookup fs plist_path).isNone then
    ⟨false, Outcome.notFound, fs, []⟩
  else
    match tryBody fs env with
    | (Except.ok oc, fs1, ws) => ⟨true, oc, fs1, ws⟩
    | (Except.error e, fs1, ws) => ⟨false, excOutcome e, fs1, ws⟩

/-- The `__main__` block, lines 41-44: exit code 0 on `True`, 1 on
`False`. -/
def mainExitCode (fs : FS) (env : IOEnv) : Nat :=
  if (update_info_plist fs env).ret then 0 else 1

/-! ### Helper lemmas about documents and the filesystem -/

theorem lookupKey_isSome_iff (d : Doc) (k : String) :
    (lookupKey d k).isSome = true ↔ k ∈ docKeys d := by
  induction d with
  | nil => simp [lookupKey, docKeys]
  | cons e rest ih =>
    by_cases h : e.1 = k
    · simp [lookupKey, docKeys, h]
    · simp [lookupKey, docKeys, h, ih, Ne.symm h]

theorem lookupKey_eraseKey_ne (d : Doc) (t k : String) (h : k ≠ t) :
    lookupKey (eraseKey d t) k = lookupKey d k := by
  induction d with
  | nil => rfl
  | cons e rest ih =>
    by_cases he : e.1 = t
    · have ht : ¬ (t = k) := fun hk => h hk.symm
      simp [eraseKey, he, lookupKey, ht, ih]
    · simp [eraseKey, he, lookupKey, ih]

theorem mem_docKeys_eraseKey (d : Doc) (t k : String) :
    k ∈ docKeys (eraseKey d t) ↔ k ∈ docKeys d ∧ k ≠ t := by
  induction d with
  | nil => simp [eraseKey, docKeys]
  | cons e rest ih =>
    by_cases he : e.1 = t
    · subst he
      simp only [eraseKey, if_pos rfl, docKeys, List.map_cons, List.mem_cons]
      constructor
      · intro h
        exact ⟨Or.inr (ih.mp h).1, (ih.mp h).2⟩
      · rintro ⟨h | h, hk⟩
        · exact absurd h hk
        · exact ih.mpr ⟨h, hk⟩
    · simp only [eraseKey, if_neg he, docKeys, List.map_cons, List.mem_cons]
      constructor
      · rintro (h | h)
        · exact ⟨Or.inl h, fun hk => he (hk ▸ h ▸ rfl)⟩
        · exact ⟨Or.inr (ih.mp h).1, (ih.mp h).2⟩
      · rintro ⟨h | h, hk⟩
        · exact Or.inl h
        · exact Or.inr (ih.mpr ⟨h, hk⟩)

theorem not_mem_docKeys_eraseKey (d : Doc) (t : String) :
    t ∉ docKeys (eraseKey d t) := by
  intro h
  exact (mem_docKeys_eraseKey d t t).mp h |>.2 rfl

theorem fsLookup_fsWrite_self (fs : FS) (p : String) (c : PContent) :
    fsLookup (fsWrite fs p c) p = some c := by
  induction fs with
  | nil => simp [fsWrite, fsLookup]
  | cons e rest ih =>
    by_cases h : e.1 = p
    · simp [fsWrite, h, fsLookup]
    · simp [fsWrite, h, fsLookup, ih]

theorem fsLookup_fsWrite_ne (fs : FS) (p q : String) (c : PContent) (h : q ≠ p) :
    fsLookup (fsWrite fs p c) q = fsLookup fs q := by
  induction fs with
  | nil => simp [fsWrite, fsLookup, Ne.symm h]
  | cons e rest ih =>
    by_cases he : e.1 = p
    · have : ¬ (p = q) := Ne.symm h
      simp [fsWrite, he, fsLookup, this, he ▸ this]
    · simp only [fsWrite, if_neg he, fsLookup]
      by_cases hq : e.1 = q
      · simp [hq]
      · simp [hq, ih]

theorem fsWrite_fsWrite (fs : FS) (p : String) (a b : PContent) :
    fsWrite (fsWrite fs p a) p b = fsWrite fs p b := by
  induction fs with
  | nil => simp [fsWrite]
  | cons e rest ih =>
    by_cases h : e.1 = p
    · simp [fsWrite, h]
    · simp [fsWrite, h, ih]

theorem fsWrite_eq_self_of_lookup (fs : FS) (p : String) (c : PContent)
    (h : fsLookup fs p = some c) : fsWrite fs p c = fs := by
  induction fs with
  | nil => simp [fsLookup] at h
  | cons e rest ih =>
    by_cases he : e.1 = p
    · simp only [fsLookup, if_pos he] at h
      simp only [fsWrite, if_pos he]
      obtain rfl : e.2 = c := Option.some.inj h
      rw [← he]
    · simp only [fsLookup, if_neg he] at h
      simp [fsWrite, he, ih h]

/-! ### Characterizations of a run -/

theorem run_notFound (fs : FS) (env : IOEnv)
    (h : fsLookup fs plist_path = none) :
    update_info_plist fs env = ⟨false, Outcome.notFound, fs, []⟩ := by
  simp [update_info_plist, h]

theorem run_parse_ok (fs : FS) (env : IOEnv) (fmt : Fmt) (d : Doc)
    (hread : env.readOk = true) (hopen : env.openWriteOk = true)
    (hdump : env.dumpOk = true)
    (hfile : fsLookup fs plist_path = some (PContent.plist fmt d)) :
    update_info_plist fs env =
      ⟨true,
       if (lookupKey d targetKey).isSome then Outcome.removed else Outcome.alreadyAbsent,
       fsWrite fs plist_path (PContent.plist Fmt.xml
         (if (lookupKey d targetKey).isSome then eraseKey d targetKey else d)),
       [plist_path]⟩ := by
  simp [update_info_plist, tryBody, hfile, hread, hopen, hdump, fsWrite_fsWrite]

theorem ret_true_inv (fs : FS) (env : IOEnv)
    (h : (update_info_plist fs env).ret = true) :
    env.readOk = true ∧ env.openWriteOk = true ∧ env.dumpOk = true ∧
    ∃ fmt d, fsLookup fs plist_path = some (PContent.plist fmt d) := by
  obtain ⟨r, o, dp⟩ := env
  cases hL : fsLookup fs plist_path with
  | none =>
    rw [run_notFound fs ⟨r, o, dp⟩ hL] at h
    exact absurd h (by simp)
  | some c =>
    cases c with
    | invalid =>
      cases r <;> cases o <;> cases dp <;>
        simp [update_info_plist, tryBody, hL] at h
    | plist fmt d =>
      cases r <;> cases o <;> cases dp <;>
        simp [update_info_plist, tryBody, hL] at h ⊢

/-! ### Concrete documents and environments used by witnesses -/

/-- All I/O steps succeed. -/
def envAllOk : IOEnv := ⟨true, true, true⟩

/-- `plistlib.dump` fails after the file was opened for writing. -/
def envDumpFail : IOEnv := ⟨true, true, false⟩

/-- A document containing the target key plus one other entry. -/
def docC1 : Doc := [(targetKey, PValue.dict []), ("CFBundleName", PValue.str "Silento")]

/-- A filesystem holding `docC1` at the hardcoded path. -/
def fsC1 : FS := [(plist_path, PContent.plist Fmt.xml docC1)]

/-- A document not containing the target key. -/
def docC2 : Doc := [("CFBundleName", PValue.str "Silento"), ("N", PValue.int 3)]

/-- A filesystem holding `docC2` at the hardcoded path. -/
def fsC2 : FS := [(plist_path, PContent.plist Fmt.xml docC2)]

/-- A filesystem holding unparseable bytes at the hardcoded path. -/
def fsBad : FS := [(plist_path, PContent.invalid)]

/-! ### Claim theorems -/

/-- C1: for every valid document containing the target key at the hardcoded
path, a run with working I/O returns `True` with the `removed` outcome, and
the document written back to the same path has exactly the keys of the
input minus the target key, every other key bound to its unchanged
value. -/
theorem C1_removed_correct (fs : FS) (env : IOEnv) (fmt : Fmt) (d : Doc)
    (hread : env.readOk = true) (hopen : env.openWriteOk = true)
    (hdump : env.dumpOk = true)
    (hfile : fsLookup fs plist_path = some (PContent.plist fmt d))
    (hkey : targetKey ∈ docKeys d) :
    (update_info_plist fs env).ret = true ∧
    (update_info_plist fs env).outcome = Outcome.removed ∧
    fsLookup (update_info_plist fs env).fs plist_path =
      some (PContent.plist Fmt.xml (eraseKey d targetKey)) ∧
    (∀ k, k ∈ docKeys (eraseKey d targetKey) ↔ k ∈ docKeys d ∧ k ≠ targetKey) ∧
    (∀ k, k ≠ targetKey → lookupKey (eraseKey d targetKey) k = lookupKey d k) := by
  have hp : (lookupKey d targetKey).isSome = true :=
    (lookupKey_isSome_iff d targetKey).mpr hkey
  rw [run_parse_ok fs env fmt d hread hopen hdump hfile]
  refine ⟨rfl, by simp [hp], ?_, ?_, ?_⟩
  · simp [hp, fsLookup_fsWrite_self]
  · exact fun k => mem_docKeys_eraseKey d targetKey k
  · exact fun k hk => lookupKey_eraseKey_ne d targetKey k hk

/-- Witness for C1 at a concrete two-key document. -/
theorem C1_removed_correct_witness :
    (update_info_plist fsC1 envAllOk).ret = true ∧
    (update_info_plist fsC1 envAllOk).outcome = Outcome.removed ∧
    fsLookup (update_info_plist fsC1 envAllOk).fs plist_path =
      some (PContent.plist Fmt.xml (eraseKey docC1 targetKey)) := by
  have h := C1_removed_correct fsC1 envAllOk Fmt.xml docC1 rfl rfl rfl rfl
    (by simp [docC1, docKeys])
  exact ⟨h.1, h.2.1, h.2.2.1⟩

/-- C2: for every valid document not containing the target key, a run with
working I/O returns `True` with the `alreadyAbsent` outcome, and the
document written back is exactly the input document (same keys, same
values). -/
theorem C2_absent_correct (fs : FS) (env : IOEnv) (fmt : Fmt) (d : Doc)
    (hread : env.readOk = true) (hopen : env.openWriteOk = true)
    (hdump : env.dumpOk = true)
    (hfile : fsLookup fs plist_path = some (PContent.plist fmt d))
    (hkey : targetKey ∉ docKeys d) :
    (update_info_plist fs env).ret = true ∧
    (update_info_plist fs env).outcome = Outcome.alreadyAbsent ∧
    fsLookup (update_info_plist fs env).fs plist_path =
      some (PContent.plist Fmt.xml d) := by
  have hp : (lookupKey d targetKey).isSome = false := by
    rw [Bool.eq_false_iff]
    intro hc
    exact hkey ((lookupKey_isSome_iff d targetKey).mp hc)
  rw [run_parse_ok fs env fmt d hread hopen hdump hfile]
  refine ⟨rfl, by simp [hp], by simp [hp, fsLookup_fsWrite_self]⟩

/-- Witness for C2 at a concrete document without the target key. -/
theorem C2_absent_correct_witness :
    (update_info_plist fsC2 envAllOk).ret = true ∧
    (update_info_plist fsC2 envAllOk).outcome = Outcome.alreadyAbsent ∧
    fsLookup (update_info_plist fsC2 envAllOk).fs plist_path =
      some (PContent.plist Fmt.xml docC2) :=
  C2_absent_correct fsC2 envAllOk Fmt.xml docC2 rfl rfl rfl rfl
    (by simp [docC2, docKeys, targetKey])

/-- C4: when no file exists at the hardcoded path, the run returns `False`
with the `notFound` outcome, which is distinct from `parseError`; nothing
is read, written or created (the filesystem is exactly the input one, and
the path still holds no file). -/
theorem C4_notFound (fs : FS) (env : IOEnv)
    (h : fsLookup fs plist_path = none) :
    (update_info_plist fs env).ret = false ∧
    (update_info_plist fs env).outcome = Outcome.notFound ∧
    Outcome.notFound ≠ Outcome.parseError ∧
    (update_info_plist fs env).fs = fs ∧
    (update_info_plist fs env).writes = [] ∧
    fsLookup (update_info_plist fs env).fs plist_path = none := by
  rw [run_notFound fs env h]
  exact ⟨rfl, rfl, by decide, rfl, rfl, h⟩

/-- Witness for C4 on the empty filesystem. -/
theorem C4_notFound_witness :
    (update_info_plist [] envAllOk).ret = false ∧
    (update_info_plist [] envAllOk).outcome = Outcome.notFound ∧
    Outcome.notFound ≠ Outcome.parseError ∧
    (update_info_plist [] envAllOk).fs = [] ∧
    (update_info_plist [] envAllOk).writes = [] ∧
    fsLookup (update_info_plist [] envAllOk).fs plist_path = none :=
  C4_notFound [] envAllOk rfl

/-- C5: when the file at the hardcoded path holds unparseable bytes, the
run returns `False` with the `parseError` outcome, no path is ever opened
for writing, and the filesystem (in particular the file's content) is left
exactly as it was. -/
theorem C5_parseError (fs : FS) (env : IOEnv)
    (hread : env.readOk = true)
    (h : fsLookup fs plist_path = some PContent.invalid) :
    (update_info_plist fs env).ret = false ∧
    (update_info_plist fs env).outcome = Outcome.parseError ∧
    (update_info_plist fs env).fs = fs ∧
    (update_info_plist fs env).writes = [] := by
  simp [update_info_plist, tryBody, h, hread, excOutcome]

/-- Witness for C5 on a filesystem holding invalid bytes at the path. -/
theorem C5_parseError_witness :
    (update_info_plist fsBad envAllOk).ret = false ∧
    (update_info_plist fsBad envAllOk).outcome = Outcome.parseError ∧
    (update_info_plist fsBad envAllOk).fs = fsBad ∧
    (update_info_plist fsBad envAllOk).writes = [] :=
  C5_parseError fsBad envAllOk rfl rfl

/-- C3: idempotence: whenever a first run returns `True`, a second run on
the resulting filesystem (with working I/O) returns `True` with the
`alreadyAbsent` outcome and leaves the filesystem exactly as the first run
left it. -/
theorem C3_idempotent (fs : FS) (env env2 : IOEnv)
    (h1 : (update_info_plist fs env).ret = true)
    (hread2 : env2.readOk = true) (hopen2 : env2.openWriteOk = true)
    (hdump2 : env2.dumpOk = true) :
    (update_info_plist (update_info_plist fs env).fs env2).ret = true ∧
    (update_info_plist (update_info_plist fs env).fs env2).outcome =
      Outcome.alreadyAbsent ∧
    (update_info_plist (update_info_plist fs env).fs env2).fs =
      (update_info_plist fs env).fs := by
  obtain ⟨hr, ho, hd, fmt, d, hfile⟩ := ret_true_inv fs env h1
  have e1 := run_parse_ok fs env fmt d hr ho hd hfile
  set d1 := (if (lookupKey d targetKey).isSome then eraseKey d targetKey else d)
    with hd1
  have hfs1 : (update_info_plist fs env).fs =
      fsWrite fs plist_path (PContent.plist Fmt.xml d1) := by
    rw [e1]
  have habs : (lookupKey d1 targetKey).isSome = false := by
    rw [Bool.eq_false_iff]
    intro hc
    have hmem := (lookupKey_isSome_iff d1 targetKey).mp hc
    by_cases hp : (lookupKey d targetKey).isSome = true
    · rw [hd1, if_pos hp] at hmem
      exact not_mem_docKeys_eraseKey d targetKey hmem
    · rw [hd1, if_neg hp] at hmem
      exact hp ((lookupKey_isSome_iff d targetKey).mpr hmem)
  have hfile1 : fsLookup (update_info_plist fs env).fs plist_path =
      some (PContent.plist Fmt.xml d1) := by
    rw [hfs1]
    exact fsLookup_fsWrite_self fs plist_path _
  have e2 := run_parse_ok (update_info_plist fs env).fs env2 Fmt.xml d1
    hread2 hopen2 hdump2 hfile1
  rw [e2]
  refine ⟨rfl, by simp [habs], ?_⟩
  simp only [habs, Bool.false_eq_true, if_false]
  exact fsWrite_eq_self_of_lookup _ plist_path _ hfile1

/-- A document with the target key, for the idempotence witness. -/
def docC3 : Doc := [(targetKey, PValue.array []), ("V", PValue.str "1")]

/-- A filesystem holding `docC3` at the hardcoded path. -/
def fsC3 : FS := [(plist_path, PContent.plist Fmt.binary docC3)]

/-- Witness for C3: two consecutive runs on a concrete file. -/
theorem C3_idempotent_witness :
    (update_info_plist (update_info_plist fsC3 envAllOk).fs envAllOk).ret = true ∧
    (update_info_plist (update_info_plist fsC3 envAllOk).fs envAllOk).outcome =
      Outcome.alreadyAbsent ∧
    (update_info_plist (update_info_plist fsC3 envAllOk).fs envAllOk).fs =
      (update_info_plist fsC3 envAllOk).fs :=
  C3_idempotent fsC3 envAllOk envAllOk rfl rfl rfl rfl

/-- Helper recognizing truncated (unparseable) file content. -/
def isInvalid : Option PContent → Bool
  | some PContent.invalid => true
  | _ => false

/-- A document with only the target key, for the write-failure runs. -/
def docC6 : Doc := [(targetKey, PValue.bool true)]

/-- A filesystem holding `docC6` at the hardcoded path. -/
def fsC6 : FS := [(plist_path, PContent.plist Fmt.xml docC6)]

/-- C6 counterexample: a run on a valid file whose `plistlib.dump` fails
after `open(plist_path, 'wb')` succeeded returns `False`, yet the file is
not untouched: `open('wb')` already truncated it, so its content after the
failed run is invalid bytes instead of the original document. -/
theorem C6_counterexample :
    (update_info_plist fsC6 envDumpFail).ret = false ∧
    fsLookup fsC6 plist_path = some (PContent.plist Fmt.xml docC6) ∧
    fsLookup (update_info_plist fsC6 envDumpFail).fs plist_path =
      some PContent.invalid ∧
    fsLookup (update_info_plist fsC6 envDumpFail).fs plist_path ≠
      fsLookup fsC6 plist_path := by
  refine ⟨rfl, rfl, rfl, ?_⟩
  intro hc
  have h1 : isInvalid (fsLookup fsC6 plist_path) = true := by
    rw [← hc]
    rfl
  exact absurd h1 (by decide)

/-- C6 amended: every run returning `False` either opened nothing for
writing and left the filesystem exactly as it was (`notFound`, read and
parse errors, failure to open for writing), or had already opened the file
for writing, in which case the file's content is the truncated invalid
remains, not the original. -/
theorem C6_failure_effects (fs : FS) (env : IOEnv)
    (h : (update_info_plist fs env).ret = false) :
    ((update_info_plist fs env).writes = [] ∧
      (update_info_plist fs env).fs = fs) ∨
    ((update_info_plist fs env).writes = [plist_path] ∧
      fsLookup (update_info_plist fs env).fs plist_path =
        some PContent.invalid) := by
  obtain ⟨r, o, dp⟩ := env
  cases hL : fsLookup fs plist_path with
  | none =>
    rw [run_notFound fs ⟨r, o, dp⟩ hL]
    exact Or.inl ⟨rfl, rfl⟩
  | some c =>
    cases c with
    | invalid =>
      cases r <;>
        simp [update_info_plist, tryBody, hL, excOutcome]
    | plist fmt d =>
      cases r <;> cases o <;> cases dp <;>
        simp [update_info_plist, tryBody, hL, excOutcome,
          fsLookup_fsWrite_self, fsWrite_fsWrite] at h ⊢

/-- Witness for the amended C6 on the concrete dump-failure run. -/
theorem C6_failure_effects_witness :
    ((update_info_plist fsC6 envDumpFail).writes = [] ∧
      (update_info_plist fsC6 envDumpFail).fs = fsC6) ∨
    ((update_info_plist fsC6 envDumpFail).writes = [plist_path] ∧
      fsLookup (update_info_plist fsC6 envDumpFail).fs plist_path =
        some PContent.invalid) :=
  C6_failure_effects fsC6 envDumpFail rfl

/-- A document without the target key, stored in binary format. -/
def docC7 : Doc := [("CFBundleName", PValue.str "Silento")]

/-- A filesystem holding a binary-format plist at the hardcoded path. -/
def fsC7 : FS := [(plist_path, PContent.plist Fmt.binary docC7)]

/-- C7 counterexample: `plistlib.dump` is called without a `fmt` argument,
so a binary-format input file is written back in XML format, not in its
original binary format: on a concrete binary input the run succeeds and
the file afterwards is XML. -/
theorem C7_counterexample :
    fsLookup fsC7 plist_path = some (PContent.plist Fmt.binary docC7) ∧
    (update_info_plist fsC7 envAllOk).ret = true ∧
    fsLookup (update_info_plist fsC7 envAllOk).fs plist_path =
      some (PContent.plist Fmt.xml docC7) ∧
    Fmt.xml ≠ Fmt.binary :=
  ⟨rfl, rfl, rfl, by decide⟩

/-- C7 amended: every successfully parsed input is serialized back in XML
format regardless of the input format (an XML input stays XML, a binary
input is converted to XML). -/
theorem C7_always_xml (fs : FS) (env : IOEnv) (fmt : Fmt) (d : Doc)
    (hread : env.readOk = true) (hopen : env.openWriteOk = true)
    (hdump : env.dumpOk = true)
    (hfile : fsLookup fs plist_path = some (PContent.plist fmt d)) :
    ∃ d1, fsLookup (update_info_plist fs env).fs plist_path =
      some (PContent.plist Fmt.xml d1) := by
  rw [run_parse_ok fs env fmt d hread hopen hdump hfile]
  exact ⟨_, fsLookup_fsWrite_self fs plist_path _⟩

/-- Witness for the amended C7 on the concrete binary-format input. -/
theorem C7_always_xml_witness :
    ∃ d1, fsLookup (update_info_plist fsC7 envAllOk).fs plist_path =
      some (PContent.plist Fmt.xml d1) :=
  C7_always_xml fsC7 envAllOk Fmt.binary docC7 rfl rfl rfl rfl

/-- C8: after every successful parse (with working I/O) the run returns
`True` and the hardcoded path is opened for writing and overwritten, even
when the target key was absent and the document was not mutated: in that
case the file afterwards is exactly the re-serialization of the unchanged
document. -/
theorem C8_unconditional_write (fs : FS) (env : IOEnv) (fmt : Fmt) (d : Doc)
    (hread : env.readOk = true) (hopen : env.openWriteOk = true)
    (hdump : env.dumpOk = true)
    (hfile : fsLookup fs plist_path = some (PContent.plist fmt d)) :
    (update_info_plist fs env).ret = true ∧
    (update_info_plist fs env).writes = [plist_path] ∧
    (targetKey ∉ docKeys d →
      (update_info_plist fs env).fs =
        fsWrite fs plist_path (PContent.plist Fmt.xml d)) := by
  rw [run_parse_ok fs env fmt d hread hopen hdump hfile]
  refine ⟨rfl, rfl, fun habs => ?_⟩
  have hp : (lookupKey d targetKey).isSome = false := by
    rw [Bool.eq_false_iff]
    intro hc
    exact habs ((lookupKey_isSome_iff d targetKey).mp hc)
  simp [hp]

/-- A one-entry document without the target key. -/
def docC8 : Doc := [("W", PValue.int 7)]

/-- A filesystem holding `docC8` at the hardcoded path. -/
def fsC8 : FS := [(plist_path, PContent.plist Fmt.xml docC8)]

/-- Witness for C8 on a concrete key-absent input. -/
theorem C8_unconditional_write_witness :
    (update_info_plist fsC8 envAllOk).ret = true ∧
    (update_info_plist fsC8 envAllOk).writes = [plist_path] ∧
    (update_info_plist fsC8 envAllOk).fs =
      fsWrite fsC8 plist_path (PContent.plist Fmt.xml docC8) := by
  have h := C8_unconditional_write fsC8 envAllOk Fmt.xml docC8 rfl rfl rfl rfl
  exact ⟨h.1, h.2.1, h.2.2 (by simp [docC8, docKeys, targetKey])⟩

/-- C9: every exception raised inside the `try` block (read, parse or
write failure) is caught and reported as a `False` return with the
corresponding tagged outcome (or the run had already returned the tagged
`notFound` result before the block ran); the `__main__` caller maps the
failure to exit code 1 rather than crashing. -/
theorem C9_exceptions_caught (fs : FS) (env : IOEnv) (e : PyExc)
    (h : (tryBody fs env).1 = Except.error e) :
    (update_info_plist fs env).ret = false ∧
    ((update_info_plist fs env).outcome = excOutcome e ∨
      (update_info_plist fs env).outcome = Outcome.notFound) ∧
    mainExitCode fs env = 1 := by
  cases hL : fsLookup fs plist_path with
  | none =>
    have e1 := run_notFound fs env hL
    refine ⟨by rw [e1], Or.inr (by rw [e1]), ?_⟩
    simp [mainExitCode, e1]
  | some c =>
    rcases htb : tryBody fs env with ⟨exc, fs1, ws⟩
    rw [htb] at h
    have hexc : exc = Except.error e := h
    subst hexc
    have e1 : update_info_plist fs env = ⟨false, excOutcome e, fs1, ws⟩ := by
      simp [update_info_plist, hL, htb]
    refine ⟨by rw [e1], Or.inl (by rw [e1]), ?_⟩
    simp [mainExitCode, e1]

/-- Witness for C9 on a concrete parse failure. -/
theorem C9_exceptions_caught_witness :
    (update_info_plist fsBad envDumpFail).ret = false ∧
    ((update_info_plist fsBad envDumpFail).outcome =
        excOutcome PyExc.parseError ∨
      (update_info_plist fsBad envDumpFail).outcome = Outcome.notFound) ∧
    mainExitCode fsBad envDumpFail = 1 :=
  C9_exceptions_caught fsBad envDumpFail PyExc.parseError rfl

/-- A path different from the hardcoded one. -/
def otherPath : String := "Other/Info.plist"

/-- A document with the target key, stored at `otherPath` only. -/
def docC10 : Doc := [(targetKey, PValue.bool true)]

/-- A filesystem with a valid plist containing the target key at
`otherPath` and nothing at the hardcoded path. -/
def fsC10 : FS := [(otherPath, PContent.plist Fmt.xml docC10)]

/-- C10 counterexample: the operation takes no path or key argument: with
a valid document containing the target key at a different path, the run
reports `notFound` (it only consults the hardcoded path) and changes
nothing, so no caller-supplied path is ever loaded or edited. -/
theorem C10_counterexample :
    fsLookup fsC10 otherPath = some (PContent.plist Fmt.xml docC10) ∧
    (update_info_plist fsC10 envAllOk).ret = false ∧
    (update_info_plist fsC10 envAllOk).outcome = Outcome.notFound ∧
    (update_info_plist fsC10 envAllOk).fs = fsC10 :=
  ⟨rfl, rfl, rfl, rfl⟩

/-- C10 amended: the operation is parameterless and operates only on the
fixed built-in path: on every run, every path other than the hardcoded one
holds exactly the content it held before. -/
theorem C10_fixed_path (fs : FS) (env : IOEnv) (p : String)
    (hp : p ≠ plist_path) :
    fsLookup (update_info_plist fs env).fs p = fsLookup fs p := by
  obtain ⟨r, o, dp⟩ := env
  cases hL : fsLookup fs plist_path with
  | none =>
    rw [run_notFound fs ⟨r, o, dp⟩ hL]
  | some c =>
    cases c with
    | invalid =>
      cases r <;> simp [update_info_plist, tryBody, hL]
    | plist fmt d =>
      cases r <;> cases o <;> cases dp <;>
        simp [update_info_plist, tryBody, hL, fsWrite_fsWrite,
          fsLookup_fsWrite_ne, hp]

/-- Witness for the amended C10: the file at `otherPath` is untouched by a
run on a filesystem also holding a removable document at the hardcoded
path. -/
theorem C10_fixed_path_witness :
    fsLookup (update_info_plist ((plist_path, PContent.plist Fmt.xml docC10) :: fsC10) envAllOk).fs otherPath =
      fsLookup ((plist_path, PContent.plist Fmt.xml docC10) :: fsC10) otherPath :=
  C10_fixed_path ((plist_path, PContent.plist Fmt.xml docC10) :: fsC10) envAllOk
    otherPath (by decide)
